import Mathlib

/-!
Verification development for the gocat compiler front end (tokenizer,
recursive-descent parser, and stack-discipline type checker).

Every definition is a shallow embedding translated from the Go sources:
`char.go`, the tokenizer file, `parser.go`, `typecheck.go`, and the AST /
type vocabulary file.  Go `(value, error)` returns become explicit result
types; Go runtime panics (nil-pointer dereference, out-of-range index, the
explicit `panic("BUG...")` calls, and the type-switch fallthrough panics)
become explicit `panic`-style constructors / `none` results so that they
can be reasoned about.  Machine integers are modelled as `Int` with the
explicit int64 range checks the Go code performs via `strconv`.
Source positions are not modelled: tokens carry only their lexeme and
kind, since no verified property inspects a line or column number.
-/

namespace Gocat

/-! ### Character classifiers (char.go) -/

def isdigit (c : Char) : Bool :=
  decide ('0' ≤ c) && decide (c ≤ '9')

def isletter (c : Char) : Bool :=
  if 'a' ≤ c ∧ c ≤ 'z' then true
  else if 'A' ≤ c ∧ c ≤ 'Z' then true
  else false

def isident (c : Char) : Bool :=
  isletter c || c == '.' || c == ':'

def iswhitespace (c : Char) : Bool :=
  c == '\t' || c == ' ' || c == '\r' || c == '\n'

/-! ### Tokens (tokenizer file) -/

inductive TokenType where
  | eof
  | func
  | semicolon
  | colon
  | litint
  | litfloat
  | ident
  | lcbracket
  | rcbracket
  | lparen
  | rparen
  | numsign
  | quot
  | ifKw
  | lbracket
  | rbracket
deriving DecidableEq

structure Token where
  sval : String
  type : TokenType
deriving DecidableEq

/-- Tokenizer-level errors (`TokenizerError` in Go).  We record which branch
produced the error instead of the formatted message text.  The `secondDot`
case corresponds to the `TokenizerError` built when a second `.` appears in
a numeric literal (whose `Err` field is, incidentally, nil in the Go code). -/
inductive TokErr where
  | missingDigit (lexeme : String)
  | secondDot
  | unexpectedRune (c : Char)
deriving DecidableEq

/-! ### Tokenizer (tokenizer file)

The Go tokenizer pulls runes from a buffered reader with a one-rune
pushback buffer.  For in-memory string sources `read` never fails and
returns the sentinel rune 0 at end of input, so the state is modelled as
the list of characters not yet consumed; `unread` becomes consing the rune
back on.  Sources are assumed NUL-free (a NUL byte would be
indistinguishable from end of input in the Go code). -/

/-- The `for` loop in `litintfloat`: consume digits and at most one `.`;
a second `.` is an error; any other rune is pushed back and ends the
literal.  Returns the accumulated lexeme, the `seenDot` flag and the
remaining input. -/
def litLoop (buf : List Char) (seenDot : Bool) :
    List Char → Except TokErr (List Char × Bool × List Char)
  | [] => .ok (buf, seenDot, [])
  | c :: rest =>
    if isdigit c then litLoop (buf ++ [c]) seenDot rest
    else if c = '.' then
      if seenDot then .error .secondDot
      else litLoop (buf ++ [c]) true rest
    else .ok (buf, seenDot, c :: rest)

/-- `litintfloat`: called with the first rune (a digit or `-`) already read. -/
def litintfloat (c : Char) (input : List Char) :
    Except TokErr (Token × List Char) :=
  match litLoop [c] false input with
  | .error e => .error e
  | .ok (buf, seenDot, rest) =>
    let str := String.mk buf
    if str = "-" then .error (.missingDigit str)
    else if seenDot then .ok (⟨str, .litfloat⟩, rest)
    else .ok (⟨str, .litint⟩, rest)

/-- The `for` loop in `ident`: consume a maximal run of ident-continuation
runes, pushing the first non-ident rune back. -/
def identLoop (buf : List Char) : List Char → List Char × List Char
  | [] => (buf, [])
  | c :: rest =>
    if isident c then identLoop (buf ++ [c]) rest
    else (buf, c :: rest)

/-- `ident`: called with the first rune (a letter or `%`) already read.
The lexeme `func` is the keyword token; everything else is `IDENT`. -/
def identTok (c : Char) (input : List Char) :
    Except TokErr (Token × List Char) :=
  let (buf, rest) := identLoop [c] input
  let str := String.mk buf
  if str = "func" then .ok (⟨str, .func⟩, rest)
  else .ok (⟨str, .ident⟩, rest)

/-- `Next`: skip whitespace, then dispatch on the first rune exactly as the
Go `switch` / `if` chain does. -/
def tokNext : List Char → Except TokErr (Token × List Char)
  | [] => .ok (⟨"<eof>", .eof⟩, [])
  | c :: rest =>
    if iswhitespace c then tokNext rest
    else if c = '#' then .ok (⟨"#", .numsign⟩, rest)
    else if c = ';' then .ok (⟨";", .semicolon⟩, rest)
    else if c = Char.ofNat 123 then .ok (⟨"\x7b", .lcbracket⟩, rest)
    else if c = Char.ofNat 125 then .ok (⟨"\x7d", .rcbracket⟩, rest)
    else if c = '[' then .ok (⟨"[", .lbracket⟩, rest)
    else if c = ']' then .ok (⟨"]", .rbracket⟩, rest)
    else if c = '(' then .ok (⟨"(", .lparen⟩, rest)
    else if c = ')' then .ok (⟨")", .rparen⟩, rest)
    else if c = Char.ofNat 39 then .ok (⟨"'", .quot⟩, rest)
    else if isletter c || c = '%' then identTok c rest
    else if isdigit c || c = '-' then litintfloat c rest
    else .error (.unexpectedRune c)

/-! ### Types and the type order (AST / type vocabulary file)

`ContractType` is declared in the source but never constructed, compared or
checked anywhere, so it is omitted.  A `none` result of `TypeCmp` /
`TypeCompatibleWith` models the Go panics `"BUG: can't compare these
types?"` / `"BUG: Can't tell if compatible or not?"` reached when a
`FuncType` is involved, and the out-of-range index panic in the
member-wise union comparison loop. -/

inductive Ty where
  | void
  | prim (name : String)
  | union (types : List Ty)
  | func (argTypes : List Ty) (retTypes : List Ty)

/-- `strings.Compare`, restricted to the ASCII strings this code compares
(byte order and code-point order agree on ASCII). -/
def charListCmp : List Char → List Char → Int
  | [], [] => 0
  | [], _ :: _ => -1
  | _ :: _, [] => 1
  | a :: as, b :: bs =>
    if a.toNat < b.toNat then -1
    else if b.toNat < a.toNat then 1
    else charListCmp as bs

def goStrCmp (a b : String) : Int :=
  charListCmp a.data b.data

mutual

/-- `TypeCmp`.  Note the source's union/union length test compares
`len(ut1.Types)` with itself, so the "fewer types first" branch is dead
code; it is kept verbatim. -/
def TypeCmp : Ty → Ty → Option Int
  | .void, .void => some 0
  | .void, _ => some (-1)
  | .prim a, .prim b => some (goStrCmp a b)
  | .prim _, .void => some 1
  | .prim _, .union _ => some (-1)
  | .prim _, .func _ _ => none
  | .union _, .prim _ => some 1
  | .union _, .void => some 1
  | .union ts1, .union ts2 =>
    if ts1.length < ts1.length then some (-1)
    else if ts2.length < ts1.length then some 1
    else TypeCmpList ts1 ts2
  | .union _, .func _ _ => none
  | .func _ _, _ => none

/-- The member-wise loop `for i := 0; i < len(ut1.Types); i++` of the
union/union case.  A first list longer than the second would index the
second out of range, a runtime panic (`none`); the callers never reach
that case. -/
def TypeCmpList : List Ty → List Ty → Option Int
  | [], _ => some 0
  | _ :: _, [] => none
  | a :: as, b :: bs =>
    match TypeCmp a b with
    | none => none
    | some c => if c = 0 then TypeCmpList as bs else some c

end

/-- `TypeEqual(t1, t2)` is `TypeCmp(t1, t2) == 0`; it panics when `TypeCmp`
does. -/
def TypeEqual (a b : Ty) : Option Bool :=
  (TypeCmp a b).map (fun c => decide (c = 0))

/-- The membership scan of the prim/union case of `TypeCompatibleWith`. -/
def memTypeEqual (a : Ty) : List Ty → Option Bool
  | [] => some false
  | b :: bs =>
    match TypeEqual a b with
    | none => none
    | some true => some true
    | some false => memTypeEqual a bs

/-- The union/union case of `TypeCompatibleWith`: every member of the first
union must occur (by `TypeEqual`) in the second. -/
def allMemCompat (as' bs : List Ty) : Option Bool :=
  match as' with
  | [] => some true
  | a :: rest =>
    match memTypeEqual a bs with
    | none => none
    | some false => some false
    | some true => allMemCompat rest bs

/-- `TypeCompatibleWith(a, b)`.  A `FuncType` first argument falls through
both type switches and reaches `panic("BUG: Can't tell if compatible or
not?")`, modelled by `none`. -/
def TypeCompatibleWith (a b : Ty) : Option Bool :=
  match a, b with
  | .void, .void => some true
  | .void, _ => some false
  | .prim _, .prim _ => TypeEqual a b
  | .prim _, .union ts => memTypeEqual a ts
  | .prim _, _ => some false
  | .union as', .union bs => allMemCompat as' bs
  | .union _, _ => some false
  | .func _ _, _ => none

/-! ### Union construction (`NewUnionType`)

`sort.Slice` with `less i j := TypeCmp(types[i], types[j]) < 0` is modelled
as an insertion sort over the same strict-less test; a comparator panic
(possible only with `FuncType` members, which no caller produces) is
defaulted.  The duplicate diagnostic message text is not modelled. -/

def ltTy (a b : Ty) : Bool :=
  decide (((TypeCmp a b).getD 0) < 0)

def insertTy (a : Ty) : List Ty → List Ty
  | [] => [a]
  | b :: bs => if ltTy a b then a :: b :: bs else b :: insertTy a bs

def sortTy : List Ty → List Ty
  | [] => []
  | a :: rest => insertTy a (sortTy rest)

/-- The adjacent-duplicate scan `if i != 0 && TypeEqual(types[i], types[i-1])`. -/
def dupAdj : List Ty → Bool
  | a :: b :: rest =>
    if (TypeEqual b a).getD false then true else dupAdj (b :: rest)
  | _ => false

def NewUnionType (types : List Ty) : Except String Ty :=
  let sorted := sortTy types
  if dupAdj sorted then .error "Duplicate type in union type."
  else .ok (.union sorted)

/-! ### AST nodes (AST / type vocabulary file)

Float literal values are carried as their lexeme text: no verified
property inspects the numeric value of a float, only its type.  `Arg.type`
is an `Option` because the Go field is an interface that is nil in
`VoidArg`. -/

structure Arg where
  name : String
  type : Option Ty

def VoidArg : Arg := ⟨"", none⟩

inductive Node where
  | litInt (value : Int) (token : Token)
  | litFloat (value : String) (token : Token)
  | verb (verb : String) (token : Token)
  | quot (ident : String) (token : Token)
  | exp (exps : List Node) (token : Token)
  | funcN (name : String) (args : List Arg) (body : List Node)
      (retTypes : List Ty) (token : Token)

/-! ### Number parsing (`strconv`, as used by parseData)

`strconv.ParseInt(s, 10, 64)` accepts an optional sign followed by at
least one digit, within the int64 range.  `strconv.ParseFloat` is modelled
only on the lexeme shapes `litintfloat` can emit (an optional leading `-`,
digits, at most one `.`): on those it succeeds exactly when the lexeme
contains at least one digit; the value is kept as text. -/

def digitsValAux : List Char → Nat → Option Nat
  | [], acc => some acc
  | c :: rest, acc =>
    if isdigit c then digitsValAux rest (acc * 10 + (c.toNat - 48)) else none

def digitsVal : List Char → Option Nat
  | [] => none
  | cs => digitsValAux cs 0

def goParseInt (s : String) : Option Int :=
  match s.data with
  | '-' :: rest =>
    (digitsVal rest).bind fun n =>
      if n ≤ 2 ^ 63 then some (-(n : Int)) else none
  | '+' :: rest =>
    (digitsVal rest).bind fun n =>
      if n < 2 ^ 63 then some (n : Int) else none
  | l =>
    (digitsVal l).bind fun n =>
      if n < 2 ^ 63 then some (n : Int) else none

def goParseFloatOk (s : String) : Bool :=
  s.data.any isdigit

/-! ### Parser (parser.go)

The parser owns the tokenizer plus a token pushback buffer (`tkbuf`,
appended to by `unread`, drained from the front by `readbuf`).  Each Go
method `(value, error)` return with a mutated receiver becomes a `PRes`
carrying the resulting state; `PRes.panic` models Go runtime panics — both
the explicit `panic("BUG...")` calls and the nil-pointer dereferences /
out-of-range stores reachable in the source.  The fixed 8-element slices
(`funcs`, `args`, `bodies`, `nodes`) are modelled with their out-of-range
panic at the ninth store.  Recursion is fuelled; `fuelOut` never occurs
with enough fuel for the concrete inputs proved about. -/

structure PState where
  tkbuf : List Token
  input : List Char
deriving DecidableEq

/-- Errors a parse function can return: a propagated `TokenizerError` or a
`ParserError` carrying the offending token and message. -/
inductive PErr where
  | tokErr (e : TokErr)
  | parseErr (token : Token) (msg : String)
deriving DecidableEq

inductive PRes (α : Type) where
  | ok (val : α) (p : PState)
  | err (e : PErr) (p : PState)
  | panic (msg : String)
  | fuelOut

/-- `read`: take from the pushback buffer first, otherwise pull the next
token.  On a tokenizer error the Go parser state keeps whatever the
tokenizer consumed; every caller either aborts or (in `parseArg`) returns
immediately, so the exact remainder is irrelevant and kept as-is. -/
def PState.read (p : PState) : Except TokErr Token × PState :=
  match p.tkbuf with
  | t :: rest => (.ok t, ⟨rest, p.input⟩)
  | [] =>
    match tokNext p.input with
    | .error e => (.error e, ⟨[], p.input⟩)
    | .ok (tk, rest) => (.ok tk, ⟨[], rest⟩)

def PState.unread (p : PState) (tk : Token) : PState :=
  ⟨p.tkbuf ++ [tk], p.input⟩

def mkPState (code : String) : PState :=
  ⟨[], code.data⟩

/-- `parseData`: a literal, identifier (verb) or quotation.  In the `QUOT`
branch the Go code dereferences the token before checking the read error
(`if tk.Type != TT_IDENT` at parser.go:109), so a tokenizer error there is
a nil-pointer dereference panic. -/
def parseData (p : PState) : PRes Node :=
  match p.read with
  | (.error e, p) => .err (.tokErr e) p
  | (.ok tk, p) =>
    match tk.type with
    | .litint =>
      match goParseInt tk.sval with
      | none => .err (.parseErr tk ("`" ++ tk.sval ++ "` is not a valid integer literal.")) p
      | some iv => .ok (.litInt iv tk) p
    | .litfloat =>
      if goParseFloatOk tk.sval then .ok (.litFloat tk.sval tk) p
      else .err (.parseErr tk ("`" ++ tk.sval ++ "` is not a valid float literal.")) p
    | .ident => .ok (.verb tk.sval tk) p
    | .quot =>
      match p.read with
      | (.error _, _) => .panic "nil pointer dereference"
      | (.ok tk, p) =>
        if tk.type ≠ TokenType.ident then
          .err (.parseErr tk ("Expected identifier but got `" ++ tk.sval ++ "`.")) p
        else .ok (.quot tk.sval tk) p
    | _ => .err (.parseErr tk ("Expected literal but got `" ++ tk.sval ++ "`.")) p

mutual

/-- `parseType`: an identifier is a prim type; `{` opens a union. -/
def parseType (fuel : Nat) (p : PState) : PRes Ty :=
  match fuel with
  | 0 => .fuelOut
  | fuel + 1 =>
    match p.read with
    | (.error e, p) => .err (.tokErr e) p
    | (.ok tk, p) =>
      match tk.type with
      | .ident => .ok (.prim tk.sval) p
      | .lcbracket => parseUnionItems fuel tk p []
      | _ => .err (.parseErr tk ("`" ++ tk.sval ++ "` is not a type.")) p

/-- The union-member loop of `parseType`.  `lbTk` is the opening `{` token,
which is the `tk` in scope when `NewUnionType`'s error is wrapped. -/
def parseUnionItems (fuel : Nat) (lbTk : Token) (p : PState) (types : List Ty) : PRes Ty :=
  match fuel with
  | 0 => .fuelOut
  | fuel + 1 =>
    match p.read with
    | (.error e, p) => .err (.tokErr e) p
    | (.ok tk, p) =>
      match tk.type with
      | .ident =>
        match parseType fuel (p.unread tk) with
        | .ok typ p => parseUnionItems fuel lbTk p (types ++ [typ])
        | .err e p => .err e p
        | .panic m => .panic m
        | .fuelOut => .fuelOut
      | .lcbracket =>
        .err (.parseErr tk ("Unexpected " ++ tk.sval ++ ". Union types can not be nested.")) p
      | .rcbracket =>
        match NewUnionType types with
        | .error msg => .err (.parseErr lbTk msg) p
        | .ok ut => .ok ut p
      | _ => .err (.parseErr tk ("Expected identifier but got `" ++ tk.sval ++ "`.")) p

end

/-- `parseArg`: `(` IDENT type `)`.  The first two reads return
`(VoidArg, nil)` — value and nil error — when the read itself fails
(parser.go:131-133 and 144-146). -/
def parseArg (fuel : Nat) (p : PState) : PRes Arg :=
  match p.read with
  | (.error _, p) => .ok VoidArg p
  | (.ok tk, p) =>
    if tk.type ≠ TokenType.lparen then
      .err (.parseErr tk ("Expected `(` but got `" ++ tk.sval ++ "`.")) p
    else
      match p.read with
      | (.error _, p) => .ok VoidArg p
      | (.ok tk, p) =>
        if tk.type ≠ TokenType.ident then
          .err (.parseErr tk ("Expected identifier but got `" ++ tk.sval ++ "`.")) p
        else
          let aname := tk.sval
          match parseType fuel p with
          | .err e p => .err e p
          | .panic m => .panic m
          | .fuelOut => .fuelOut
          | .ok tp p =>
            match p.read with
            | (.error e, p) => .err (.tokErr e) p
            | (.ok tk, p) =>
              if tk.type ≠ TokenType.rparen then
                .err (.parseErr tk ("Expected `)` but got `" ++ tk.sval ++ "`.")) p
              else .ok ⟨aname, some tp⟩ p

/-- The accumulation loop of `parseExp`.  `firsttk` is the first token read
(the `ExpNode`'s token); `nodes` models the fixed 8-slot backing array. -/
def parseExpItems (fuel : Nat) (firsttk : Token) (nodes : List Node) (p : PState) : PRes Node :=
  match fuel with
  | 0 => .fuelOut
  | fuel + 1 =>
    match p.read with
    | (.error e, p) => .err (.tokErr e) p
    | (.ok tk, p) =>
      match tk.type with
      | .litint | .litfloat | .ident | .quot =>
        match parseData (p.unread tk) with
        | .err e p => .err e p
        | .panic m => .panic m
        | .fuelOut => .fuelOut
        | .ok node p =>
          if nodes.length ≥ 8 then .panic "index out of range"
          else parseExpItems fuel firsttk (nodes ++ [node]) p
      | .semicolon => .ok (.exp nodes firsttk) p
      | _ =>
        .err (.parseErr tk ("Expected literal, identifier, `;` or `'` but got `" ++ tk.sval ++ "`.")) p

/-- `parseExp`: read items until `;`.  The Go code captures the first token
before checking the read error; on a first-read error it returns the error
(the nil `firsttk` is never dereferenced). -/
def parseExp (fuel : Nat) (p : PState) : PRes Node :=
  match p.read with
  | (.error e, p) => .err (.tokErr e) p
  | (.ok tk, p) =>
    parseExpItems fuel tk [] (p.unread tk)

/-- `parseIf` is `panic("BUG")` in the source. -/
def parseIf : PRes Node :=
  .panic "BUG"

/-- The argument-list loop of `parseFunc` (between the first `[` and `]`). -/
def parseFuncArgs (fuel : Nat) (args : List Arg) (p : PState) : PRes (List Arg)  :=
  match fuel with
  | 0 => .fuelOut
  | fuel + 1 =>
    match p.read with
    | (.error e, p) => .err (.tokErr e) p
    | (.ok tk, p) =>
      match tk.type with
      | .rbracket => .ok args p
      | .lparen =>
        match parseArg fuel (p.unread tk) with
        | .err e p => .err e p
        | .panic m => .panic m
        | .fuelOut => .fuelOut
        | .ok arg p =>
          if args.length ≥ 8 then .panic "index out of range"
          else parseFuncArgs fuel (args ++ [arg]) p
      | _ =>
        .err (.parseErr tk ("Expected `(` or `)` but got `" ++ tk.sval ++ "`")) p

/-- The return-type loop of `parseFunc` (between the second `[` and `]`). -/
def parseFuncRets (fuel : Nat) (rets : List Ty) (p : PState) : PRes (List Ty) :=
  match fuel with
  | 0 => .fuelOut
  | fuel + 1 =>
    match p.read with
    | (.error e, p) => .err (.tokErr e) p
    | (.ok tk, p) =>
      match tk.type with
      | .rbracket => .ok rets p
      | _ =>
        match parseType fuel (p.unread tk) with
        | .err e p => .err e p
        | .panic m => .panic m
        | .fuelOut => .fuelOut
        | .ok ret p => parseFuncRets fuel (rets ++ [ret]) p

/-- The body loop of `parseFunc` (between `{` and `}`); `bodies` models the
fixed 8-slot backing array. -/
def parseFuncBody (fuel : Nat) (bodies : List Node) (p : PState) : PRes (List Node) :=
  match fuel with
  | 0 => .fuelOut
  | fuel + 1 =>
    match p.read with
    | (.error e, p) => .err (.tokErr e) p
    | (.ok tk, p) =>
      match tk.type with
      | .rcbracket => .ok bodies p
      | .ifKw =>
        match parseIf with
        | .err e p => .err e p
        | .panic m => .panic m
        | .fuelOut => .fuelOut
        | .ok ifn p =>
          if bodies.length ≥ 8 then .panic "index out of range"
          else parseFuncBody fuel (bodies ++ [ifn]) p
      | _ =>
        match parseExp fuel (p.unread tk) with
        | .err e p => .err e p
        | .panic m => .panic m
        | .fuelOut => .fuelOut
        | .ok sexp p =>
          if bodies.length ≥ 8 then .panic "index out of range"
          else parseFuncBody fuel (bodies ++ [sexp]) p

/-- `parseFunc`: `func` IDENT `[` arg* `]` `[` type* `]` `{` body* `}`.
After the return types the Go code dereferences the `{` token before
checking the read error (`if tk.Type != TT_LCBRACKET` at parser.go:442),
so a tokenizer error there is a nil-pointer dereference panic. -/
def parseFunc (fuel : Nat) (p : PState) : PRes Node :=
  match p.read with
  | (.error e, p) => .err (.tokErr e) p
  | (.ok firsttk, p) =>
    if firsttk.type ≠ TokenType.func then
      .err (.parseErr firsttk ("Expected `func` but got `" ++ firsttk.sval ++ "`.")) p
    else
      match p.read with
      | (.error e, p) => .err (.tokErr e) p
      | (.ok tk, p) =>
        if tk.type ≠ TokenType.ident then
          .err (.parseErr tk ("Expected identifier but got `" ++ tk.sval ++ "`.")) p
        else if tk.sval.data.contains ':' then
          .err (.parseErr tk ("`:` is not allowed in identifiers in this context. Offending identifier is `" ++ tk.sval ++ "`.")) p
        else
          let funcname := tk.sval
          match p.read with
          | (.error e, p) => .err (.tokErr e) p
          | (.ok tk, p) =>
            if tk.type ≠ TokenType.lbracket then
              .err (.parseErr tk ("Expected `[` but got `" ++ tk.sval ++ "`.")) p
            else
              match parseFuncArgs fuel [] p with
              | .err e p => .err e p
              | .panic m => .panic m
              | .fuelOut => .fuelOut
              | .ok args p =>
                match p.read with
                | (.error e, p) => .err (.tokErr e) p
                | (.ok tk, p) =>
                  if tk.type ≠ TokenType.lbracket then
                    .err (.parseErr tk ("Expected `[` but got `" ++ tk.sval ++ "`.")) p
                  else
                    match parseFuncRets fuel [] p with
                    | .err e p => .err e p
                    | .panic m => .panic m
                    | .fuelOut => .fuelOut
                    | .ok rets p =>
                      match p.read with
                      | (.error _, _) => .panic "nil pointer dereference"
                      | (.ok tk, p) =>
                        if tk.type ≠ TokenType.lcbracket then
                          .err (.parseErr tk ("Expected `\x7b` but got `" ++ tk.sval ++ "`.")) p
                        else
                          match parseFuncBody fuel [] p with
                          | .err e p => .err e p
                          | .panic m => .panic m
                          | .fuelOut => .fuelOut
                          | .ok bodies p =>
                            .ok (.funcN funcname args bodies rets firsttk) p

/-- The top-level loop of `parseFuncs`: stop at `EOF`; any other token must
be `(` — and is then pushed back into `parseFunc`, which in turn requires
`func`.  The successful `parseFunc` result is downcast to `*FuncNode`
(`panic("BUG: didn't get *FuncNode")` otherwise); `funcs` models the fixed
8-slot backing array. -/
def parseFuncsLoop (fuel : Nat) (funcs : List Node) (p : PState) : PRes (List Node) :=
  match fuel with
  | 0 => .fuelOut
  | fuel + 1 =>
    match p.read with
    | (.error e, p) => .err (.tokErr e) p
    | (.ok tk, p) =>
      if tk.type = TokenType.eof then .ok funcs p
      else if tk.type ≠ TokenType.lparen then
        .err (.parseErr tk ("Expected `(` but got `" ++ tk.sval ++ "`.")) p
      else
        match parseFunc fuel (p.unread tk) with
        | .err e p => .err e p
        | .panic m => .panic m
        | .fuelOut => .fuelOut
        | .ok fn p =>
          match fn with
          | .funcN _ _ _ _ _ =>
            if funcs.length ≥ 8 then .panic "index out of range"
            else parseFuncsLoop fuel (funcs ++ [fn]) p
          | _ => .panic "BUG: didn't get *FuncNode"

/-- `parseFuncs` (the body of the exported `Funcs` entry point). -/
def parseFuncs (fuel : Nat) (p : PState) : PRes (List Node) :=
  parseFuncsLoop fuel [] p

/-! ### Type worlds and inference (typecheck.go)

A `TypeWorld` (a Go map) is modelled as an association list with unique
keys; `TypeWorlds.Lookup` scans from the innermost (last) world to the
outermost.  `TCRes.panic` models the panic `TypeCompatibleWith` can raise
(propagated out of `InferTypes` / `TypeCheck`). -/

def TypeWorld := List (String × Ty)

def TypeWorlds := List TypeWorld

/-- Go map indexing `tws[i][val]` (nil for a missing key). -/
def worldFind : TypeWorld → String → Option Ty
  | [], _ => none
  | (k, t) :: rest, name => if k = name then some t else worldFind rest name

/-- `TypeWorlds.Lookup`: `for i := len(tws) - 1; i >= 0; i--`. -/
def twLookup : TypeWorlds → String → Option Ty
  | [], _ => none
  | w :: rest, name =>
    match twLookup rest name with
    | some t => some t
    | none => worldFind w name

/-- The `builtins` table. -/
def builtins : TypeWorld :=
  [("square.i", Ty.func [Ty.prim "int"] [Ty.prim "int"])]

/-- Inference and checking errors.  `typeError` is the `*TypeError` struct
(wanted, got, token, extra); the other cases are the `fmt.Errorf` messages
of typecheck.go, carried structurally:
`notExist f`   = "Function `f` does not exist!",
`notFunction f` = "`f` is not of type function.",
`notEnoughArguments` = "Not enough arguments.",
`cantInfer` = "Can't infer types.",
`arity f m n` = "Function `f` does not return the right amount of values.
Wanted m but got n." -/
inductive TCErr where
  | typeError (wanted : Ty) (got : Ty) (token : Token) (extra : String)
  | notExist (verb : String)
  | notFunction (verb : String)
  | notEnoughArguments
  | cantInfer
  | arity (fname : String) (wanted : Nat) (got : Nat)

inductive TCRes where
  | ok (stack : List Ty)
  | err (e : TCErr)
  | panic

/-- Result of the argument-compatibility loop inside the `VerbNode` case. -/
inductive ArgCheck where
  | ok
  | err (e : TCErr)
  | panicked

/-- The loop `for i := 0; i < m; i++` checking
`TypeCompatibleWith(stack[len(stack)-m+i], funcType.ArgTypes[i])`:
the pairs are exactly `(stack.drop (stack.length - m)).zip argTypes`
since the caller guarantees `m ≤ stack.length`. -/
def checkArgs (expTok : Token) (verb : String) : List (Ty × Ty) → ArgCheck
  | [] => .ok
  | (got, wanted) :: rest =>
    match TypeCompatibleWith got wanted with
    | none => .panicked
    | some false => .err (.typeError wanted got expTok ("in a call to `" ++ verb ++ "`."))
    | some true => checkArgs expTok verb rest

/-- The item loop of the `ExpNode` case of `InferTypes`: literals push
their prim type, verbs are looked up and applied, every other node kind is
skipped by the inner type switch. -/
def inferItems (items : List Node) (expTok : Token) (stack : List Ty)
    (tws : TypeWorlds) : TCRes :=
  match items with
  | [] => .ok stack
  | v :: rest =>
    match v with
    | .litInt _ _ => inferItems rest expTok (stack ++ [.prim "int"]) tws
    | .litFloat _ _ => inferItems rest expTok (stack ++ [.prim "float"]) tws
    | .verb verb _ =>
      match twLookup tws verb with
      | none => .err (.notExist verb)
      | some ft =>
        match ft with
        | .func argTypes retTypes =>
          if stack.length < argTypes.length then .err .notEnoughArguments
          else
            match checkArgs expTok verb
                ((stack.drop (stack.length - argTypes.length)).zip argTypes) with
            | .panicked => .panic
            | .err e => .err e
            | .ok =>
              inferItems rest expTok
                (stack.take (stack.length - argTypes.length) ++ retTypes) tws
        | _ => .err (.notFunction verb)
    | _ => inferItems rest expTok stack tws

/-- `InferTypes`: top-level literals push directly; an `ExpNode` runs the
item loop; anything else is "Can't infer types." -/
def InferTypes (node : Node) (stack : List Ty) (tws : TypeWorlds) : TCRes :=
  match node with
  | .litFloat _ _ => .ok (stack ++ [.prim "float"])
  | .litInt _ _ => .ok (stack ++ [.prim "int"])
  | .exp exps token => inferItems exps token stack tws
  | _ => .err .cantInfer

/-- The test harness pipeline of typecheck_test.go: parse an expression
with `parseExp` and infer it with a nil stack and
`NewTypeWorlds(builtins)`; `none` when the parse itself fails. -/
def InferCode (code : String) : Option TCRes :=
  match parseExp 100 (mkPState code) with
  | .ok n _ => some (InferTypes n [] [builtins])
  | _ => none

/-! ### Module-level checking (`TypeCheck`, module.go)

A function record binds the `FuncType` derived at load time to the
function's name and its `FuncNode`; `TypeCheck` only reads the node's
`Body` and `Token`, which are stored here directly.  Go map iteration is
modelled as list order (the map invariant `k == v.Name` is assumed by
construction, and map keys are unique).  `NewTypeWorlds(builtins,
modulesTypeWorld)` puts the module world innermost. -/

structure FuncT where
  argTypes : List Ty
  retTypes : List Ty

structure Func where
  ftype : FuncT
  name : String
  body : List Node
  token : Token

structure Module where
  name : String
  funcs : List Func

inductive CheckRes where
  | ok
  | err (e : TCErr)
  | panic

/-- The per-function body loop: `types, err = InferTypes(node, types, ...)`
threading the stack, first error out. -/
def inferBody (tws : TypeWorlds) : List Node → List Ty → TCRes
  | [], stack => .ok stack
  | n :: rest, stack =>
    match InferTypes n stack tws with
    | .ok stack2 => inferBody tws rest stack2
    | .err e => .err e
    | .panic => .panic

/-- The returned-values loop `for i := 0; i < len(types); i++` checking
`TypeCompatibleWith(types[i], fn.Type.RetTypes[i])`; arity equality is
checked by the caller so the pairs are `types.zip retTypes`. -/
def checkRets (fname : String) (ftok : Token) : List (Ty × Ty) → CheckRes
  | [] => .ok
  | (got, wanted) :: rest =>
    match TypeCompatibleWith got wanted with
    | none => .panic
    | some false =>
      .err (.typeError wanted got ftok
        ("(in returned values of function `" ++ fname ++ "`)"))
    | some true => checkRets fname ftok rest

/-- Checking one function: start from `types := make([]Type, 0)` — the
empty stack, arguments are not pre-pushed — infer the body, then the arity
check, then the member-wise return compatibility check. -/
def checkFunc (tws : TypeWorlds) (fn : Func) : CheckRes :=
  match inferBody tws fn.body [] with
  | .panic => .panic
  | .err e => .err e
  | .ok types =>
    if types.length ≠ fn.ftype.retTypes.length then
      .err (.arity fn.name fn.ftype.retTypes.length types.length)
    else checkRets fn.name fn.token (types.zip fn.ftype.retTypes)

def checkFuncs (tws : TypeWorlds) : List Func → CheckRes
  | [] => .ok
  | fn :: rest =>
    match checkFunc tws fn with
    | .ok => checkFuncs tws rest
    | r => r

def checkModules (tws : TypeWorlds) : List Module → CheckRes
  | [] => .ok
  | m :: rest =>
    match checkFuncs tws m.funcs with
    | .ok => checkModules tws rest
    | r => r

/-- `modulesTypeWorld`: every function under its fully qualified name
`moduleName + ":" + funcName`, bound to its `FuncType`. -/
def mkModulesWorld (modules : List Module) : TypeWorld :=
  modules.flatMap fun m =>
    m.funcs.map fun fn =>
      (m.name ++ ":" ++ fn.name, Ty.func fn.ftype.argTypes fn.ftype.retTypes)

/-- `TypeCheck`: build the worlds from all modules, then check every
function of every module, halting at the first error. -/
def TypeCheck (modules : List Module) : CheckRes :=
  checkModules [builtins, mkModulesWorld modules] modules

/-! ### Helper lemmas: the type order on the func-free fragment

`noFuncTy` carves out the types actually built by the parser and checker
stacks (`Void`, `Prim`, unions of such): on that fragment `TypeCmp` never
reaches its panic branch and is reflexive. -/

mutual

def noFuncTy : Ty → Bool
  | .void => true
  | .prim _ => true
  | .union ts => noFuncList ts
  | .func _ _ => false

def noFuncList : List Ty → Bool
  | [] => true
  | t :: rest => noFuncTy t && noFuncList rest

end

theorem noFuncList_mem {ts : List Ty} (h : noFuncList ts = true) {a : Ty}
    (ha : a ∈ ts) : noFuncTy a = true := by
  induction ts with
  | nil => cases ha
  | cons b bs ih =>
    rw [noFuncList, Bool.and_eq_true] at h
    rcases List.mem_cons.mp ha with rfl | ha2
    · exact h.1
    · exact ih h.2 ha2

theorem charListCmp_self : ∀ l : List Char, charListCmp l l = 0
  | [] => rfl
  | a :: as => by simp [charListCmp, charListCmp_self as]

theorem goStrCmp_self (s : String) : goStrCmp s s = 0 :=
  charListCmp_self s.data

mutual

theorem typeCmp_refl : ∀ (t : Ty), noFuncTy t = true → TypeCmp t t = some 0
  | .void, _ => rfl
  | .prim n, _ => by simp [TypeCmp, goStrCmp_self]
  | .union ts, h => by
    have hl := typeCmpList_refl ts (by rwa [noFuncTy] at h)
    simp [TypeCmp, hl]
  | .func _ _, h => by rw [noFuncTy] at h; cases h

theorem typeCmpList_refl : ∀ (ts : List Ty), noFuncList ts = true →
    TypeCmpList ts ts = some 0
  | [], _ => rfl
  | a :: as, h => by
    rw [noFuncList, Bool.and_eq_true] at h
    have h1 := typeCmp_refl a h.1
    have h2 := typeCmpList_refl as h.2
    simp [TypeCmpList, h1, h2]

end

mutual

theorem typeCmp_total : ∀ (a b : Ty), noFuncTy a = true → noFuncTy b = true →
    (TypeCmp a b).isSome = true
  | .void, .void, _, _ => rfl
  | .void, .prim _, _, _ => rfl
  | .void, .union _, _, _ => rfl
  | .void, .func _ _, _, hb => by rw [noFuncTy] at hb; cases hb
  | .prim _, .void, _, _ => rfl
  | .prim _, .prim _, _, _ => rfl
  | .prim _, .union _, _, _ => rfl
  | .prim _, .func _ _, _, hb => by rw [noFuncTy] at hb; cases hb
  | .union _, .void, _, _ => rfl
  | .union _, .prim _, _, _ => rfl
  | .union ts1, .union ts2, ha, hb => by
    rw [noFuncTy] at ha hb
    by_cases hlen : ts2.length < ts1.length
    · simp [TypeCmp, hlen]
    · have := typeCmpList_total ts1 ts2 ha hb (by omega)
      simp [TypeCmp, hlen, this]
  | .union _, .func _ _, _, hb => by rw [noFuncTy] at hb; cases hb
  | .func _ _, _, ha, _ => by rw [noFuncTy] at ha; cases ha

theorem typeCmpList_total : ∀ (as' bs : List Ty), noFuncList as' = true →
    noFuncList bs = true → as'.length ≤ bs.length →
    (TypeCmpList as' bs).isSome = true
  | [], _, _, _, _ => rfl
  | _ :: _, [], _, _, hlen => by simp at hlen
  | a :: as', b :: bs, ha, hb, hlen => by
    rw [noFuncList, Bool.and_eq_true] at ha hb
    have h1 := typeCmp_total a b ha.1 hb.1
    obtain ⟨c, hc⟩ := Option.isSome_iff_exists.mp h1
    by_cases hc0 : c = 0
    · have h2 := typeCmpList_total as' bs ha.2 hb.2 (by simpa using hlen)
      simp [TypeCmpList, hc, hc0, h2]
    · simp [TypeCmpList, hc, hc0]

end

theorem typeEqual_refl {t : Ty} (h : noFuncTy t = true) :
    TypeEqual t t = some true := by
  simp [TypeEqual, typeCmp_refl t h]

theorem memTypeEqual_mem : ∀ {a : Ty} (ts : List Ty), noFuncTy a = true →
    noFuncList ts = true → a ∈ ts → memTypeEqual a ts = some true := by
  intro a ts
  induction ts with
  | nil => intro _ _ hmem; cases hmem
  | cons b bs ih =>
    intro ha hts hmem
    rw [noFuncList, Bool.and_eq_true] at hts
    obtain ⟨c, hc⟩ := Option.isSome_iff_exists.mp (typeCmp_total a b ha hts.1)
    by_cases hc0 : c = 0
    · simp [memTypeEqual, TypeEqual, hc, hc0]
    · rcases List.mem_cons.mp hmem with rfl | hmem2
      · rw [typeCmp_refl a ha] at hc
        cases hc
        exact absurd rfl hc0
      · simp [memTypeEqual, TypeEqual, hc, hc0, ih ha hts.2 hmem2]

theorem allMemCompat_all : ∀ (as' bs : List Ty),
    (∀ a ∈ as', memTypeEqual a bs = some true) →
    allMemCompat as' bs = some true
  | [], _, _ => rfl
  | a :: rest, bs, h => by
    have h1 := h a (List.mem_cons_self a rest)
    have h2 := allMemCompat_all rest bs (fun x hx => h x (List.mem_cons_of_mem a hx))
    simp [allMemCompat, h1, h2]

/-! ### Helper lemmas: the argument / return compatibility loops -/

theorem checkArgs_ok (expTok : Token) (verb : String) :
    ∀ pairs : List (Ty × Ty),
    (∀ p ∈ pairs, TypeCompatibleWith p.1 p.2 = some true) →
    checkArgs expTok verb pairs = .ok
  | [], _ => rfl
  | (got, wanted) :: rest, h => by
    have h1 := h (got, wanted) (List.mem_cons_self _ rest)
    have h2 := checkArgs_ok expTok verb rest
      (fun p hp => h p (List.mem_cons_of_mem _ hp))
    simp [checkArgs, h1, h2]

theorem checkArgs_firstErr (expTok : Token) (verb : String) :
    ∀ (pre : List (Ty × Ty)) (got wanted : Ty) (post : List (Ty × Ty)),
    (∀ p ∈ pre, TypeCompatibleWith p.1 p.2 = some true) →
    TypeCompatibleWith got wanted = some false →
    checkArgs expTok verb (pre ++ (got, wanted) :: post)
      = .err (.typeError wanted got expTok ("in a call to `" ++ verb ++ "`."))
  | [], got, wanted, post, _, hbad => by simp [checkArgs, hbad]
  | (g, w) :: pre, got, wanted, post, hpre, hbad => by
    have h1 := hpre (g, w) (List.mem_cons_self _ pre)
    have h2 := checkArgs_firstErr expTok verb pre got wanted post
      (fun p hp => hpre p (List.mem_cons_of_mem _ hp)) hbad
    simp [checkArgs, h1, h2]

theorem checkRets_ok (fname : String) (ftok : Token) :
    ∀ pairs : List (Ty × Ty),
    (∀ p ∈ pairs, TypeCompatibleWith p.1 p.2 = some true) →
    checkRets fname ftok pairs = .ok
  | [], _ => rfl
  | (got, wanted) :: rest, h => by
    have h1 := h (got, wanted) (List.mem_cons_self _ rest)
    have h2 := checkRets_ok fname ftok rest
      (fun p hp => h p (List.mem_cons_of_mem _ hp))
    simp [checkRets, h1, h2]

theorem checkRets_firstErr (fname : String) (ftok : Token) :
    ∀ (pre : List (Ty × Ty)) (got wanted : Ty) (post : List (Ty × Ty)),
    (∀ p ∈ pre, TypeCompatibleWith p.1 p.2 = some true) →
    TypeCompatibleWith got wanted = some false →
    checkRets fname ftok (pre ++ (got, wanted) :: post)
      = .err (.typeError wanted got ftok
          ("(in returned values of function `" ++ fname ++ "`)"))
  | [], got, wanted, post, _, hbad => by simp [checkRets, hbad]
  | (g, w) :: pre, got, wanted, post, hpre, hbad => by
    have h1 := hpre (g, w) (List.mem_cons_self _ pre)
    have h2 := checkRets_firstErr fname ftok pre got wanted post
      (fun p hp => hpre p (List.mem_cons_of_mem _ hp)) hbad
    simp [checkRets, h1, h2]

theorem checkModules_append (tws : TypeWorlds) :
    ∀ (ms1 ms2 : List Module), checkModules tws ms1 = .ok →
    checkModules tws (ms1 ++ ms2) = checkModules tws ms2
  | [], _, _ => by simp [checkModules]
  | m :: ms1, ms2, h => by
    rw [checkModules] at h
    cases hm : checkFuncs tws m.funcs with
    | ok =>
      rw [hm] at h
      rw [List.cons_append, checkModules, hm]
      exact checkModules_append tws ms1 ms2 h
    | err e => rw [hm] at h; cases h
    | panic => rw [hm] at h; cases h

/-! ### Helper lemmas: shapes of numeric-literal lexemes -/

/-- The consumed part of a numeric literal: what `litLoop` appends to its
accumulator is digits when no dot is seen, and digits around exactly one
dot when the loop ends with the dot flag set from an unset start. -/
theorem litLoop_spec : ∀ (input buf : List Char) (sd : Bool) (buf' : List Char)
    (sd' : Bool) (rest : List Char),
    litLoop buf sd input = .ok (buf', sd', rest) →
    ∃ ds, buf' = buf ++ ds ∧
      (sd' = false → sd = false ∧ ds.all isdigit = true) ∧
      (sd' = true → sd = false →
        ∃ ds1 ds2, ds = ds1 ++ '.' :: ds2 ∧
          ds1.all isdigit = true ∧ ds2.all isdigit = true) ∧
      (sd = true → sd' = true ∧ ds.all isdigit = true) := by
  intro input
  induction input with
  | nil =>
    intro buf sd buf' sd' rest h
    rw [litLoop] at h
    cases h
    refine ⟨[], by simp, fun h1 => ⟨h1, rfl⟩, fun h1 h2 => ?_, fun h1 => ⟨h1, rfl⟩⟩
    rw [h1] at h2; cases h2
  | cons c cs ih =>
    intro buf sd buf' sd' rest h
    rw [litLoop] at h
    by_cases hd : isdigit c = true
    · rw [if_pos hd] at h
      obtain ⟨ds, h1, h2, h3, h4⟩ := ih _ _ _ _ _ h
      refine ⟨c :: ds, by simpa using h1, ?_, ?_, ?_⟩
      · intro hf
        obtain ⟨hsd, hall⟩ := h2 hf
        refine ⟨hsd, ?_⟩
        rw [List.all_eq_true] at hall ⊢
        intro x hx
        rcases List.mem_cons.mp hx with rfl | hx2
        · exact hd
        · exact hall x hx2
      · intro ht hf
        obtain ⟨ds1, ds2, hds, ha1, ha2⟩ := h3 ht hf
        refine ⟨c :: ds1, ds2, by simp [hds], ?_, ha2⟩
        rw [List.all_eq_true] at ha1 ⊢
        intro x hx
        rcases List.mem_cons.mp hx with rfl | hx2
        · exact hd
        · exact ha1 x hx2
      · intro ht
        obtain ⟨hsd, hall⟩ := h4 ht
        refine ⟨hsd, ?_⟩
        rw [List.all_eq_true] at hall ⊢
        intro x hx
        rcases List.mem_cons.mp hx with rfl | hx2
        · exact hd
        · exact hall x hx2
    · rw [if_neg hd] at h
      by_cases hdot : c = '.'
      · rw [if_pos hdot] at h
        cases hsd : sd with
        | true => rw [hsd, if_pos rfl] at h; cases h
        | false =>
          rw [hsd, if_neg (by simp)] at h
          obtain ⟨ds, h1, h2, h3, h4⟩ := ih _ _ _ _ _ h
          obtain ⟨hsd', hall⟩ := h4 rfl
          refine ⟨c :: ds, by simpa using h1, ?_, ?_, ?_⟩
          · intro hf; rw [hf] at hsd'; cases hsd'
          · intro _ _
            exact ⟨[], ds, by simp [hdot], rfl, hall⟩
          · intro hfalse; cases hfalse
      · rw [if_neg hdot] at h
        cases h
        refine ⟨[], by simp, fun h1 => ⟨h1, rfl⟩, fun h1 h2 => ?_, fun h1 => ⟨h1, rfl⟩⟩
        rw [h1] at h2; cases h2

/-- An emitted `LITINT` lexeme is the start rune followed by digits; since
it is not the bare `-`, it contains at least one digit. -/
theorem litintfloat_litint_digit (c : Char) (input : List Char)
    (tk : Token) (rest : List Char)
    (h : litintfloat c input = .ok (tk, rest))
    (hstart : isdigit c = true ∨ c = '-')
    (hty : tk.type = TokenType.litint) :
    tk.sval.data.any isdigit = true := by
  rw [litintfloat] at h
  cases hl : litLoop [c] false input with
  | error e => rw [hl] at h; cases h
  | ok res =>
    obtain ⟨buf, sd, rest0⟩ := res
    obtain ⟨ds, h1, h2, h3, h4⟩ := litLoop_spec input [c] false buf sd rest0 hl
    rw [hl] at h
    simp only at h
    by_cases hbar : String.mk buf = "-"
    · rw [if_pos hbar] at h; cases h
    · rw [if_neg hbar] at h
      cases hsd : sd with
      | true =>
        rw [hsd, if_pos rfl] at h
        cases h
        cases hty
      | false =>
        rw [hsd, if_neg (by simp)] at h
        cases h
        obtain ⟨_, hall⟩ := h2 hsd
        rw [List.singleton_append] at h1
        show (String.mk buf).data.any isdigit = true
        rw [h1]
        rcases hstart with hdg | hdash
        · simp [hdg]
        · cases hds : ds with
          | nil =>
            exfalso
            apply hbar
            rw [h1, hds, hdash]
          | cons d ds2 =>
            rw [hds, List.all_eq_true] at hall
            have hd0 := hall d (List.mem_cons_self d ds2)
            simp [hds, hd0]

/-- An emitted `LITFLOAT` lexeme other than exactly `-.` contains at least
one digit. -/
theorem litintfloat_litfloat_digit (c : Char) (input : List Char)
    (tk : Token) (rest : List Char)
    (h : litintfloat c input = .ok (tk, rest))
    (hstart : isdigit c = true ∨ c = '-')
    (hty : tk.type = TokenType.litfloat)
    (hnd : tk.sval ≠ "-.") :
    tk.sval.data.any isdigit = true := by
  rw [litintfloat] at h
  cases hl : litLoop [c] false input with
  | error e => rw [hl] at h; cases h
  | ok res =>
    obtain ⟨buf, sd, rest0⟩ := res
    obtain ⟨ds, h1, h2, h3, h4⟩ := litLoop_spec input [c] false buf sd rest0 hl
    rw [hl] at h
    simp only at h
    by_cases hbar : String.mk buf = "-"
    · rw [if_pos hbar] at h; cases h
    · rw [if_neg hbar] at h
      cases hsd : sd with
      | false =>
        rw [hsd, if_neg (by simp)] at h
        cases h
        cases hty
      | true =>
        rw [hsd, if_pos rfl] at h
        cases h
        obtain ⟨ds1, ds2, hds, ha1, ha2⟩ := h3 hsd rfl
        rw [List.singleton_append] at h1
        show (String.mk buf).data.any isdigit = true
        rw [h1]
        rcases hstart with hdg | hdash
        · simp [hdg]
        · cases hd1 : ds1 with
          | cons d ds1' =>
            rw [hd1, List.all_eq_true] at ha1
            have hd0 := ha1 d (List.mem_cons_self d ds1')
            refine List.any_eq_true.mpr ⟨d, ?_, hd0⟩
            simp [hds, hd1]
          | nil =>
            cases hd2 : ds2 with
            | cons d ds2' =>
              rw [hd2, List.all_eq_true] at ha2
              have hd0 := ha2 d (List.mem_cons_self d ds2')
              refine List.any_eq_true.mpr ⟨d, ?_, hd0⟩
              simp [hds, hd1, hd2]
            | nil =>
              exfalso
              apply hnd
              show String.mk buf = "-."
              rw [h1, hds, hd1, hd2, hdash]
              rfl

/-- The `ident` branch never emits a numeric-literal token. -/
theorem identTok_not_lit (c : Char) (input : List Char) (tk : Token)
    (rest : List Char) (h : identTok c input = .ok (tk, rest)) :
    tk.type = TokenType.ident ∨ tk.type = TokenType.func := by
  rw [identTok] at h
  rcases hil : identLoop [c] input with ⟨buf, rest2⟩
  rw [hil] at h
  simp only at h
  by_cases hf : String.mk buf = "func"
  · rw [if_pos hf] at h
    cases h
    exact Or.inr rfl
  · rw [if_neg hf] at h
    cases h
    exact Or.inl rfl

/-- Both digit-containment goals at once, for a token whose kind is not a
numeric literal. -/
theorem nonlit_digits (tk : Token)
    (hi : tk.type ≠ TokenType.litint) (hf : tk.type ≠ TokenType.litfloat) :
    (tk.type = TokenType.litint → tk.sval.data.any isdigit = true) ∧
    (tk.type = TokenType.litfloat → tk.sval ≠ "-." →
      tk.sval.data.any isdigit = true) :=
  ⟨fun h => absurd h hi, fun h => absurd h hf⟩

/-- Every numeric-literal token `Next` emits contains at least one digit,
except a `LITFLOAT` whose lexeme is exactly `-.`. -/
theorem tokNext_lit_digits : ∀ (input : List Char) (tk : Token)
    (rest : List Char), tokNext input = .ok (tk, rest) →
    (tk.type = TokenType.litint → tk.sval.data.any isdigit = true) ∧
    (tk.type = TokenType.litfloat → tk.sval ≠ "-." →
      tk.sval.data.any isdigit = true) := by
  intro input
  induction input with
  | nil =>
    intro tk rest h
    rw [tokNext] at h
    cases h
    exact nonlit_digits _ (by decide) (by decide)
  | cons c cs ih =>
    intro tk rest h
    rw [tokNext] at h
    by_cases hws : iswhitespace c = true
    · rw [if_pos hws] at h
      exact ih tk rest h
    · rw [if_neg hws] at h
      by_cases h1 : c = '#'
      · rw [if_pos h1] at h; cases h
        exact nonlit_digits _ (by decide) (by decide)
      · rw [if_neg h1] at h
        by_cases h2 : c = ';'
        · rw [if_pos h2] at h; cases h
          exact nonlit_digits _ (by decide) (by decide)
        · rw [if_neg h2] at h
          by_cases h3 : c = Char.ofNat 123
          · rw [if_pos h3] at h; cases h
            exact nonlit_digits _ (by decide) (by decide)
          · rw [if_neg h3] at h
            by_cases h4 : c = Char.ofNat 125
            · rw [if_pos h4] at h; cases h
              exact nonlit_digits _ (by decide) (by decide)
            · rw [if_neg h4] at h
              by_cases h5 : c = '['
              · rw [if_pos h5] at h; cases h
                exact nonlit_digits _ (by decide) (by decide)
              · rw [if_neg h5] at h
                by_cases h6 : c = ']'
                · rw [if_pos h6] at h; cases h
                  exact nonlit_digits _ (by decide) (by decide)
                · rw [if_neg h6] at h
                  by_cases h7 : c = '('
                  · rw [if_pos h7] at h; cases h
                    exact nonlit_digits _ (by decide) (by decide)
                  · rw [if_neg h7] at h
                    by_cases h8 : c = ')'
                    · rw [if_pos h8] at h; cases h
                      exact nonlit_digits _ (by decide) (by decide)
                    · rw [if_neg h8] at h
                      by_cases h9 : c = Char.ofNat 39
                      · rw [if_pos h9] at h; cases h
                        exact nonlit_digits _ (by decide) (by decide)
                      · rw [if_neg h9] at h
                        by_cases h10 : (isletter c || c = '%') = true
                        · rw [if_pos h10] at h
                          rcases identTok_not_lit c cs tk rest h with hi | hi
                          · exact nonlit_digits _ (by rw [hi]; decide)
                              (by rw [hi]; decide)
                          · exact nonlit_digits _ (by rw [hi]; decide)
                              (by rw [hi]; decide)
                        · rw [if_neg h10] at h
                          by_cases h11 : (isdigit c || c = '-') = true
                          · rw [if_pos h11] at h
                            have hstart : isdigit c = true ∨ c = '-' := by
                              simp only [Bool.or_eq_true, decide_eq_true_eq] at h11
                              exact h11
                            exact ⟨litintfloat_litint_digit c cs tk rest h hstart,
                              litintfloat_litfloat_digit c cs tk rest h hstart⟩
                          · rw [if_neg h11] at h
                            cases h

/-- Node kinds handled by the inner type switch of the `ExpNode` loop of
`InferTypes`; everything else falls through silently. -/
def isInferHandled : Node → Bool
  | .litInt _ _ => true
  | .litFloat _ _ => true
  | .verb _ _ => true
  | _ => false

/-! ### Claims -/

/-- Claim C1 (code bug): `parseFuncs` is supposed to parse a sequence of
`func ...` definitions until `EOF`, but its top-level guard demands a `(`
token and then hands the token to `parseFunc`, which demands `func`: the
two conditions are contradictory, so every nonempty program is rejected
with the error `Expected ( but got func`, even though `parseFunc` alone
parses the same definition, and only the empty file succeeds. -/
theorem parseFuncs_toplevel_contradiction :
    parseFuncs 100 (mkPState "func main [] [] \x7b\x7d")
      = .err (.parseErr ⟨"func", .func⟩ "Expected `(` but got `func`.")
          ⟨[], " main [] [] \x7b\x7d".data⟩
  ∧ parseFunc 100 (mkPState "func main [(a int)] [float] \x7b\x7d")
      = .ok (.funcN "main" [⟨"a", some (.prim "int")⟩] [] [.prim "float"]
          ⟨"func", .func⟩) ⟨[], []⟩
  ∧ parseFuncs 100 (mkPState "") = .ok [] ⟨[], []⟩ :=
  ⟨rfl, rfl, rfl⟩

/-- Claim C2 (code bug): the union/union branch of `TypeCmp` compares
`len(ut1.Types)` with itself, so a union with fewer members does not
compare strictly before a longer one: against its own comment the
comparison returns 0 on two structurally different unions (and 1 in the
swapped order, breaking antisymmetry), and `TypeEqual` calls them equal. -/
theorem typeCmp_union_length_dead_branch :
    TypeCmp (.union [.prim "float"]) (.union [.prim "float", .prim "int"])
      = some 0
  ∧ TypeCmp (.union [.prim "float", .prim "int"]) (.union [.prim "float"])
      = some 1
  ∧ TypeEqual (.union [.prim "float"]) (.union [.prim "float", .prim "int"])
      = some true
  ∧ Ty.union [.prim "float"] ≠ Ty.union [.prim "float", .prim "int"] := by
  refine ⟨rfl, rfl, rfl, ?_⟩
  intro hEq
  injection hEq with h2
  injection h2 with h2a h2b
  cases h2b

/-- Claim C3 (code bug): the parser can panic on user input.  In the
quotation branch of `parseData` and at the `\x7b` that opens a function
body in `parseFunc`, the read error is not checked before the token is
dereferenced, so a tokenizer error there (for example the unexpected rune
`$`) is a nil-pointer dereference, not a returned error. -/
theorem parser_nil_deref_on_tokenizer_error :
    parseData (mkPState "\x27$") = .panic "nil pointer dereference"
  ∧ parseExp 100 (mkPState "\x27$") = .panic "nil pointer dereference"
  ∧ parseFunc 100 (mkPState "func f [] [] $")
      = .panic "nil pointer dereference" :=
  ⟨rfl, rfl, rfl⟩

/-- Claim C4 (confirmed): inside an `ExpNode`, items are processed left to
right; an integer literal pushes `Prim(int)` and a float literal pushes
`Prim(float)`; a verb resolving to a `FuncType` with argument list `ats`
fails with the `Not enough arguments` error when the stack is shorter than
`ats`, yields a `TypeError` carrying the formal as wanted, the actual as
got and the `ExpNode` token on the first incompatible actual/formal pair,
and otherwise pops the arguments and pushes all return types in order;
consequently inferring `5 square.i;` under the builtins yields the stack
`Prim(int)` and inferring `5.0 square.i;` yields a `TypeError` with wanted
`Prim(int)` and got `Prim(float)`. -/
theorem inferTypes_exp_rules (tws : TypeWorlds) (name : String)
    (ats rts : List Ty)
    (hlook : twLookup tws name = some (.func ats rts)) :
    (∀ (v : Int) (tk : Token) (rest : List Node) (stack : List Ty)
        (expTok : Token),
      inferItems (Node.litInt v tk :: rest) expTok stack tws
        = inferItems rest expTok (stack ++ [Ty.prim "int"]) tws)
  ∧ (∀ (v : String) (tk : Token) (rest : List Node) (stack : List Ty)
        (expTok : Token),
      inferItems (Node.litFloat v tk :: rest) expTok stack tws
        = inferItems rest expTok (stack ++ [Ty.prim "float"]) tws)
  ∧ (∀ (tk : Token) (rest : List Node) (stack : List Ty) (expTok : Token),
      stack.length < ats.length →
      inferItems (Node.verb name tk :: rest) expTok stack tws
        = .err .notEnoughArguments)
  ∧ (∀ (tk : Token) (rest : List Node) (stack : List Ty) (expTok : Token)
        (pre : List (Ty × Ty)) (got wanted : Ty) (post : List (Ty × Ty)),
      ats.length ≤ stack.length →
      (stack.drop (stack.length - ats.length)).zip ats
        = pre ++ (got, wanted) :: post →
      (∀ p ∈ pre, TypeCompatibleWith p.1 p.2 = some true) →
      TypeCompatibleWith got wanted = some false →
      inferItems (Node.verb name tk :: rest) expTok stack tws
        = .err (.typeError wanted got expTok
            ("in a call to `" ++ name ++ "`.")))
  ∧ (∀ (tk : Token) (rest : List Node) (stack : List Ty) (expTok : Token),
      ats.length ≤ stack.length →
      (∀ p ∈ (stack.drop (stack.length - ats.length)).zip ats,
          TypeCompatibleWith p.1 p.2 = some true) →
      inferItems (Node.verb name tk :: rest) expTok stack tws
        = inferItems rest expTok
            (stack.take (stack.length - ats.length) ++ rts) tws)
  ∧ InferCode "5 square.i;" = some (.ok [.prim "int"])
  ∧ InferCode "5.0 square.i;"
      = some (.err (.typeError (.prim "int") (.prim "float")
          ⟨"5.0", .litfloat⟩ "in a call to `square.i`.")) := by
  refine ⟨fun _ _ _ _ _ => rfl, fun _ _ _ _ _ => rfl, ?_, ?_, ?_, rfl, rfl⟩
  · intro tk rest stack expTok hlen
    simp only [inferItems, hlook, if_pos hlen]
  · intro tk rest stack expTok pre got wanted post hlen hzip hpre hbad
    have hlt : ¬ stack.length < ats.length := by omega
    simp only [inferItems, hlook, if_neg hlt, hzip,
      checkArgs_firstErr expTok name pre got wanted post hpre hbad]
  · intro tk rest stack expTok hlen hok
    have hlt : ¬ stack.length < ats.length := by omega
    simp only [inferItems, hlook, if_neg hlt,
      checkArgs_ok expTok name _ hok]

/-- Witness for C4: calling the builtin `square.i` on an empty stack is an
arity underflow. -/
theorem inferTypes_exp_rules_witness :
    inferItems [Node.verb "square.i" ⟨"square.i", TokenType.ident⟩]
      ⟨"5", TokenType.litint⟩ [] [builtins] = .err .notEnoughArguments :=
  (inferTypes_exp_rules [builtins] "square.i" [.prim "int"] [.prim "int"]
    rfl).2.2.1 ⟨"square.i", TokenType.ident⟩ [] [] ⟨"5", TokenType.litint⟩
    (by decide)

/-- Claim C5 (confirmed): each function is checked from an empty type
stack (declared arguments are not pre-pushed), threading the stack through
the body nodes in order; a stack length different from the declared return
arity is the arity error carrying the wanted and got counts; otherwise
each stack entry must be compatible with the matching declared return
type, a failure being a `TypeError` whose extra text names the function in
its returned-values form; and the first error from any function is
returned immediately.  The concrete conjunct shows a function with a
declared `int` argument, empty body and one declared return failing with
`Wanted 1 but got 0`: the argument was not pre-pushed. -/
theorem typeCheck_function_rules (tws : TypeWorlds) (fn : Func) :
    (∀ stack : List Ty, inferBody tws fn.body [] = .ok stack →
      stack.length ≠ fn.ftype.retTypes.length →
      checkFunc tws fn
        = .err (.arity fn.name fn.ftype.retTypes.length stack.length))
  ∧ (∀ (stack : List Ty) (pre : List (Ty × Ty)) (got wanted : Ty)
        (post : List (Ty × Ty)),
      inferBody tws fn.body [] = .ok stack →
      stack.length = fn.ftype.retTypes.length →
      stack.zip fn.ftype.retTypes = pre ++ (got, wanted) :: post →
      (∀ p ∈ pre, TypeCompatibleWith p.1 p.2 = some true) →
      TypeCompatibleWith got wanted = some false →
      checkFunc tws fn = .err (.typeError wanted got fn.token
        ("(in returned values of function `" ++ fn.name ++ "`)")))
  ∧ (∀ stack : List Ty, inferBody tws fn.body [] = .ok stack →
      stack.length = fn.ftype.retTypes.length →
      (∀ p ∈ stack.zip fn.ftype.retTypes,
          TypeCompatibleWith p.1 p.2 = some true) →
      checkFunc tws fn = .ok)
  ∧ (∀ (e : TCErr) (rest : List Func), checkFunc tws fn = .err e →
      checkFuncs tws (fn :: rest) = .err e)
  ∧ (∀ (ms1 ms2 : List Module) (e : TCErr),
      checkModules [builtins, mkModulesWorld (ms1 ++ ms2)] ms1 = .ok →
      checkModules [builtins, mkModulesWorld (ms1 ++ ms2)] ms2 = .err e →
      TypeCheck (ms1 ++ ms2) = .err e)
  ∧ TypeCheck [⟨"m", [⟨⟨[.prim "int"], [.prim "int"]⟩, "f", [],
      ⟨"func", .func⟩⟩]⟩] = .err (.arity "f" 1 0) := by
  refine ⟨?_, ?_, ?_, ?_, ?_, rfl⟩
  · intro stack hbody hlen
    simp only [checkFunc, hbody, if_pos hlen]
  · intro stack pre got wanted post hbody hlen hzip hpre hbad
    have hne : ¬ stack.length ≠ fn.ftype.retTypes.length := by omega
    simp only [checkFunc, hbody, if_neg hne, hzip,
      checkRets_firstErr fn.name fn.token pre got wanted post hpre hbad]
  · intro stack hbody hlen hok
    have hne : ¬ stack.length ≠ fn.ftype.retTypes.length := by omega
    simp only [checkFunc, hbody, if_neg hne,
      checkRets_ok fn.name fn.token _ hok]
  · intro e rest herr
    simp only [checkFuncs, herr]
  · intro ms1 ms2 e h1 h2
    show checkModules [builtins, mkModulesWorld (ms1 ++ ms2)] (ms1 ++ ms2)
      = .err e
    rw [checkModules_append _ ms1 ms2 h1]
    exact h2

/-- Witness for C5: the concrete one-function module checked directly. -/
theorem typeCheck_function_rules_witness :
    checkFunc [builtins]
      ⟨⟨[Ty.prim "int"], [Ty.prim "int"]⟩, "f", [], ⟨"func", .func⟩⟩
      = .err (.arity "f" 1 0) :=
  (typeCheck_function_rules [builtins]
    ⟨⟨[Ty.prim "int"], [Ty.prim "int"]⟩, "f", [], ⟨"func", .func⟩⟩).1
    [] rfl (by decide)

/-- Claim C6 (code bug): when its first or second read fails with a
tokenizer error, `parseArg` returns the placeholder `VoidArg` with a nil
error instead of surfacing the error: on the inputs `($` and `$` (where
`$` is a tokenizer error) the result is `ok VoidArg`. -/
theorem parseArg_swallows_read_error :
    parseArg 100 (mkPState "($") = .ok VoidArg ⟨[], "$".data⟩
  ∧ parseArg 100 (mkPState "$") = .ok VoidArg ⟨[], "$".data⟩ :=
  ⟨rfl, rfl⟩

/-- Counterexample for C7: `TypeCompatibleWith` applied to the builtin
`square.i` function type and itself reaches the fallthrough panic
(modelled `none`) instead of returning true. -/
theorem compat_functype_panics :
    TypeCompatibleWith (Ty.func [Ty.prim "int"] [Ty.prim "int"])
      (Ty.func [Ty.prim "int"] [Ty.prim "int"]) = none
  ∧ worldFind builtins "square.i"
      = some (Ty.func [Ty.prim "int"] [Ty.prim "int"]) :=
  ⟨rfl, rfl⟩

/-- Claim C7 (corrected): compatibility is reflexive on every constructible
type that contains no `FuncType` — `Void`, every `Prim`, and every union
built from such members (which covers all parser-constructible types); on
a `FuncType` value such as the builtin `square.i` entry,
`TypeCompatibleWith(t, t)` panics instead of returning true. -/
theorem compat_refl_nofunc : ∀ (t : Ty), noFuncTy t = true →
    TypeCompatibleWith t t = some true
  | .void, _ => rfl
  | .prim n, _ => by
    show TypeEqual (.prim n) (.prim n) = some true
    exact typeEqual_refl rfl
  | .union ts, h => by
    rw [noFuncTy] at h
    show allMemCompat ts ts = some true
    exact allMemCompat_all ts ts
      (fun a ha => memTypeEqual_mem ts (noFuncList_mem h ha) h ha)
  | .func _ _, h => by rw [noFuncTy] at h; cases h

/-- Witness for C7: reflexivity at a two-member union of prims. -/
theorem compat_refl_nofunc_witness :
    TypeCompatibleWith (Ty.union [Ty.prim "float", Ty.prim "int"])
      (Ty.union [Ty.prim "float", Ty.prim "int"]) = some true :=
  compat_refl_nofunc (Ty.union [Ty.prim "float", Ty.prim "int"]) rfl

/-- Counterexample for C8: tokenizing `-.` emits a `LITFLOAT` token whose
lexeme `-.` contains no digit, refuting the claim that every emitted
numeric token contains at least one digit. -/
theorem litfloat_dash_dot_no_digit :
    tokNext "-.".data = .ok (⟨"-.", TokenType.litfloat⟩, [])
  ∧ "-.".data.any isdigit = false :=
  ⟨rfl, rfl⟩

/-- Claim C8 (corrected): a numeric literal starts with a digit or `-` and
a lexeme consisting of the bare `-` is the missing-digit tokenizer error,
so every emitted `LITINT` lexeme contains at least one digit and every
emitted `LITFLOAT` lexeme other than exactly `-.` contains at least one
digit; tokenizing `-399` yields exactly one `LITINT` with lexeme `-399`
followed by `EOF`. -/
theorem numeric_literal_digit_rules :
    tokNext "-399".data = .ok (⟨"-399", TokenType.litint⟩, [])
  ∧ tokNext ([] : List Char) = .ok (⟨"<eof>", TokenType.eof⟩, [])
  ∧ tokNext "-".data = .error (.missingDigit "-")
  ∧ (∀ (input : List Char) (tk : Token) (rest : List Char),
      tokNext input = .ok (tk, rest) → tk.type = TokenType.litint →
      tk.sval.data.any isdigit = true)
  ∧ (∀ (input : List Char) (tk : Token) (rest : List Char),
      tokNext input = .ok (tk, rest) → tk.type = TokenType.litfloat →
      tk.sval ≠ "-." → tk.sval.data.any isdigit = true) :=
  ⟨rfl, rfl, rfl,
    fun input tk rest h => (tokNext_lit_digits input tk rest h).1,
    fun input tk rest h => (tokNext_lit_digits input tk rest h).2⟩

/-- Witness for C8: the `LITINT` emitted for the input `7` contains a
digit. -/
theorem numeric_literal_digit_rules_witness :
    (Token.mk "7" TokenType.litint).sval.data.any isdigit = true :=
  numeric_literal_digit_rules.2.2.2.1 "7".data ⟨"7", TokenType.litint⟩ []
    rfl rfl

/-- Claim C9 (confirmed): an item of an `ExpNode` that is neither a
literal node nor a `VerbNode` — in particular every `QuotNode` — is
skipped by the inner type switch of `InferTypes`: the stack after the item
equals the stack before it and no error is reported for it. -/
theorem inferItems_skips_unhandled (v : Node)
    (h : isInferHandled v = false) :
    (∀ (rest : List Node) (expTok : Token) (stack : List Ty)
        (tws : TypeWorlds),
      inferItems (v :: rest) expTok stack tws
        = inferItems rest expTok stack tws)
  ∧ (∀ (tok : Token) (stack : List Ty) (tws : TypeWorlds),
      InferTypes (.exp [v] tok) stack tws = .ok stack) := by
  cases v with
  | litInt v t => rw [isInferHandled] at h; cases h
  | litFloat v t => rw [isInferHandled] at h; cases h
  | verb v t => rw [isInferHandled] at h; cases h
  | quot i t => exact ⟨fun _ _ _ _ => rfl, fun _ _ _ => rfl⟩
  | exp e t => exact ⟨fun _ _ _ _ => rfl, fun _ _ _ => rfl⟩
  | funcN n a b r t => exact ⟨fun _ _ _ _ => rfl, fun _ _ _ => rfl⟩

/-- Witness for C9: a quotation of `foo` leaves a one-entry stack
untouched. -/
theorem inferItems_skips_unhandled_witness :
    inferItems [Node.quot "foo" ⟨"foo", TokenType.ident⟩]
      ⟨"\x27", TokenType.quot⟩ [Ty.prim "int"] [builtins]
      = inferItems [] ⟨"\x27", TokenType.quot⟩ [Ty.prim "int"] [builtins] :=
  (inferItems_skips_unhandled (Node.quot "foo" ⟨"foo", TokenType.ident⟩)
    rfl).1 [] ⟨"\x27", TokenType.quot⟩ [Ty.prim "int"] [builtins]

/-- Claim C10 (confirmed): parsing the type expression consisting of an
opening and closing curly bracket succeeds and returns a union type with
an empty member list; `NewUnionType` accepts the empty list. -/
theorem parseType_empty_union_ok :
    parseType 100 (mkPState "\x7b\x7d") = .ok (.union []) ⟨[], []⟩
  ∧ NewUnionType [] = .ok (.union []) :=
  ⟨rfl, rfl⟩

end Gocat
